import Mathlib

/-!
Verification of the audio spectrogram classification scenario
(`example_scenarios/audio_spectrogram_classification.py`).

The scenario's data are numpy arrays of arbitrary rank; we embed them as a
nested inductive `Tensor`.  The `segment` function, the training / validation
/ benign / adversarial drivers of `_evaluate` are embedded as pure Lean
functions; the external collaborators (dataset iterators, classifier, attack
generator, task metric) are supplied as oracle parameters, and the calls the
drivers make to the metrics aggregator (together with dataset loads and
errors) are recorded in an event trace.
-/

namespace ASC

/-- Nested representation of a numpy array: either a 0-d scalar or an array
of sub-tensors along the leading axis. -/
inductive Tensor where
  | scalar (v : Int)
  | arr (elems : List Tensor)

instance : Inhabited Tensor := ⟨Tensor.arr []⟩

mutual

/-- Decidable structural equality on tensors. -/
def Tensor.decEq : (a b : Tensor) → Decidable (a = b)
  | .scalar a, .scalar b =>
    match Int.decEq a b with
    | isTrue h => isTrue (by rw [h])
    | isFalse h => isFalse (by intro hc; cases hc; exact h rfl)
  | .arr l, .arr m =>
    match Tensor.decEqList l m with
    | isTrue h => isTrue (by rw [h])
    | isFalse h => isFalse (by intro hc; cases hc; exact h rfl)
  | .scalar _, .arr _ => isFalse (by intro h; cases h)
  | .arr _, .scalar _ => isFalse (by intro h; cases h)
termination_by structural a => a

/-- Decidable structural equality on tensor lists. -/
def Tensor.decEqList : (l m : List Tensor) → Decidable (l = m)
  | [], [] => isTrue rfl
  | a :: as, b :: bs =>
    match Tensor.decEq a b, Tensor.decEqList as bs with
    | isTrue h1, isTrue h2 => isTrue (by rw [h1, h2])
    | isFalse h1, _ => isFalse (by intro hc; injection hc with hh _; exact h1 hh)
    | _, isFalse h2 => isFalse (by intro hc; injection hc with _ ht; exact h2 ht)
  | [], _ :: _ => isFalse (by intro h; cases h)
  | _ :: _, [] => isFalse (by intro h; cases h)
termination_by structural l => l

end

instance : DecidableEq Tensor := Tensor.decEq

/-- Length of a tensor along its leading axis (`t.shape[0]`); 0 for scalars. -/
def topLen : Tensor → Nat
  | .scalar _ => 0
  | .arr l => l.length

/-- `t.shape[1]` of a (rectangular) tensor: the leading length of its first
element.  For a spectrogram of shape `(F, T)` this is the time-bin count `T`. -/
def shape1 : Tensor → Nat
  | .scalar _ => 0
  | .arr [] => 0
  | .arr (r :: _) => topLen r

/-- Slice a tensor along its leading axis: `t[a:b]`. -/
def sliceTop (a b : Nat) : Tensor → Tensor
  | .scalar v => .scalar v
  | .arr l => .arr ((l.drop a).take (b - a))

/-- Slice a tensor along its second axis: `t[:, a:b]`. -/
def slice1 (a b : Nat) : Tensor → Tensor
  | .scalar v => .scalar v
  | .arr l => .arr (l.map (sliceTop a b))

mutual

/-- `np.expand_dims(t, -1)`: append a trailing singleton axis, i.e. wrap each
innermost scalar into a one-element array. -/
def expandLast : Tensor → Tensor
  | .scalar v => .arr [.scalar v]
  | .arr l => .arr (expandLastList l)

/-- `expandLast` mapped over a list of tensors. -/
def expandLastList : List Tensor → List Tensor
  | [] => []
  | t :: ts => expandLast t :: expandLastList ts

end

/-- The fixed window width used by the scenario (`n_tbins = 100`). -/
def n_tbins : Nat := 100

/-- Loop body of `segment`: for each `(xt, yt)` pair, compute
`n_seg = xt.shape[1] // W`, truncate `xt` to `n_seg * W` time bins, emit the
`n_seg` contiguous `W`-wide windows and `n_seg` copies of the label, and
append everything to the running output lists. -/
def segmentAux (W : Nat) {L : Type} : List (Tensor × L) → List Tensor × List L
  | [] => ([], [])
  | p :: rest =>
    let nseg := shape1 p.1 / W
    let xtr := slice1 0 (nseg * W) p.1
    let wins := (List.range nseg).map (fun ii => slice1 (ii * W) ((ii + 1) * W) xtr)
    let r := segmentAux W rest
    (wins ++ r.1, List.replicate nseg p.2 ++ r.2)

/-- `segment(x, y, n_time_bins)` from the scenario: zip the spectrogram batch
with the label batch, cut each spectrogram into `floor(T_i/W)` windows with the
label replicated once per window, and give every emitted window a trailing
singleton channel axis (`np.expand_dims(x_seg, -1)`). -/
def segment {L : Type} (x : List Tensor) (y : List L) (W : Nat) : List Tensor × List L :=
  let r := segmentAux W (List.zip x y)
  (r.1.map expandLast, r.2)

/-- Per-example window list of `segment` (the windows contributed by one
spectrogram, before the channel axis is appended). -/
def winsOf (W : Nat) (xt : Tensor) : List Tensor :=
  let nseg := shape1 xt / W
  (List.range nseg).map (fun ii => slice1 (ii * W) ((ii + 1) * W) (slice1 0 (nseg * W) xt))

/-- A tensor is an already-window-sized input for width `W` when it has at
least one row and every row is exactly `W` long along its leading axis
(a rectangular array of shape `(F, W, ...)` with `F ≥ 1`). -/
def hasTimeWidth (W : Nat) : Tensor → Bool
  | .scalar _ => false
  | .arr [] => false
  | .arr (r :: rs) => topLen r == W && rs.all (fun q => topLen q == W)

/-- Per-example usable window count `n_i = floor(T_i / W)` of a spectrogram
batch. -/
def segCounts (W : Nat) (x : List Tensor) : List Nat :=
  x.map (fun t => shape1 t / W)

/-- Provenance of a segmented batch: the index of the source example of each
output position, given the per-example segment counts. -/
def prov : List Nat → List Nat
  | [] => []
  | n :: rest => List.replicate n 0 ++ (prov rest).map (· + 1)

/-! ## Configuration model

`_evaluate` reads the configuration dictionary through the accesses
`model_config["weights_file"]`, `model_config["fit_kwargs"]["nb_epochs"]`,
`config["dataset"]["batch_size"]`, `attack_config.get("type")`,
`attack_config.get("kwargs", {}).get("targeted")` and
`attack_config.get("use_label")`.  Optional keys are `Option`s; the
truthiness coercions (`bool(...)`, `if ...`) become `Option.getD false`. -/

/-- The `kwargs` sub-dictionary of the attack configuration; `targeted` may be
absent. -/
structure AttackKwargs where
  targeted : Option Bool

/-- The `attack` section: `type` and `use_label` may be absent, and the whole
`kwargs` sub-dictionary may be absent. -/
structure AttackConfig where
  type : Option String
  kwargs : Option AttackKwargs
  use_label : Option Bool

/-- The `model` section: whether `weights_file` is truthy, and
`fit_kwargs["nb_epochs"]`. -/
structure ModelConfig where
  weightsFile : Bool
  nbEpochs : Nat

/-- The parts of the configuration document that `_evaluate` reads. -/
structure Config where
  model : ModelConfig
  batchSize : Nat
  attack : AttackConfig

/-- `targeted = bool(attack_config.get("kwargs", {}).get("targeted"))`:
a missing `kwargs` section or a missing `targeted` key resolves to `False`. -/
def resolveTargeted (a : AttackConfig) : Bool :=
  match a.kwargs with
  | none => false
  | some k => k.targeted.getD false

/-- Truthiness of `attack_config.get("use_label")`. -/
def resolveUseLabel (a : AttackConfig) : Bool :=
  a.use_label.getD false

/-! ## Event traces

Each driver's externally visible behaviour is recorded as a list of events:
dataset loads, attack construction, classifier fits, attack-generator calls,
and the four metrics-aggregator calls.  Errors raised by the Python code
(`ValueError`, `NotImplementedError`, `ZeroDivisionError`, and the `NameError`
latent in the unreachable targeted+use_label loop body) are values of
`EvalError`. -/

instance {ε α : Type} [DecidableEq ε] [DecidableEq α] : DecidableEq (Except ε α)
  | .ok a, .ok b => decidable_of_iff (a = b) (by simp)
  | .error e, .error f => decidable_of_iff (e = f) (by simp)
  | .ok _, .error _ => isFalse (by simp)
  | .error _, .ok _ => isFalse (by simp)

/-- Dataset splits handled by `load_dataset` / `load_adversarial_dataset`. -/
inductive Split where
  | train
  | validation
  | test
  | adversarial
  deriving DecidableEq, Repr

/-- Exceptions that `_evaluate` can raise. -/
inductive EvalError where
  | valueError
  | notImplemented
  | zeroDivision
  | nameError
  deriving DecidableEq, Repr

/-- Externally visible events of one `_evaluate` run.  `L` is the label type,
`P` the type of classifier prediction batches. -/
inductive Ev (L P : Type) where
  | loadDataset (s : Split)
  | loadAttack
  | fit (i : Nat) (xs : List Tensor) (ys : List L)
  | validationAccuracy (a : ℚ)
  | updateTask (ys : List L) (p : P) (adversarial : Bool)
  | updatePerturbation (x xadv : List Tensor)
  | logTask (adversarial : Bool) (targeted : Bool)
  | generate (withLabels : Bool)
  deriving DecidableEq

/-- External collaborators and datasets consumed by `_evaluate`.  Dataset
iterators are their (finite) batch sequences; the preloaded adversarial
dataset yields `((x, x_adv), (y, y_target))` pairs when targeted and
`((x, x_adv), y)` pairs otherwise. -/
structure Oracles (L P : Type) where
  predict : List Tensor → P
  taskMetric : List L → P → List ℚ
  generate : List Tensor → Option (List L) → List Tensor
  trainBatches : List (List Tensor × List L)
  batchesPerEpoch : Nat
  valBatches : List (List Tensor × List L)
  testBatches : List (List Tensor × List L)
  advTargetedBatches : List ((List Tensor × List Tensor) × (List L × List L))
  advUntargetedBatches : List ((List Tensor × List Tensor) × List L)

variable {L P : Type}

/-! ## Validation driver -/

/-- Per-batch accumulation of the validation loop: the per-segment metric
values `task_metric(y_val_seg, y_pred)` and the increment `len(y_val_seg)` of
`cnt`. -/
def valPer (batches : List (List Tensor × List L)) (predict : List Tensor → P)
    (metric : List L → P → List ℚ) : List (List ℚ × Nat) :=
  batches.map (fun b =>
    let s := segment b.1 b.2 n_tbins
    (metric s.2 (predict s.1), s.2.length))

/-- The final value of `cnt`: the total number of validation segments. -/
def valTotal (batches : List (List Tensor × List L)) (predict : List Tensor → P)
    (metric : List L → P → List ℚ) : Nat :=
  ((valPer batches predict metric).map Prod.snd).sum

/-- `sum(validation_accuracies) / cnt`. -/
def valAcc (batches : List (List Tensor × List L)) (predict : List Tensor → P)
    (metric : List L → P → List ℚ) : ℚ :=
  (((valPer batches predict metric).map Prod.fst).flatten.sum) /
    ((valTotal batches predict metric : Nat) : ℚ)

/-- One validation pass: load the validation dataset, and for every batch
segment it, predict, extend the accuracy list with the per-segment metric and
add `len(y_val_seg)` to `cnt`; finally compute
`sum(validation_accuracies) / cnt`.  When `cnt = 0` the division raises
`ZeroDivisionError`. -/
def valRun (batches : List (List Tensor × List L)) (predict : List Tensor → P)
    (metric : List L → P → List ℚ) : List (Ev L P) × Except EvalError ℚ :=
  if valTotal batches predict metric = 0 then
    ([Ev.loadDataset .validation], .error .zeroDivision)
  else
    ([Ev.loadDataset .validation, Ev.validationAccuracy (valAcc batches predict metric)],
      .ok (valAcc batches predict metric))

/-! ## Training driver -/

/-- The training loop: for the `i`-th batch, segment it and fit; after a batch
whose 1-based position `i + 1` is an exact multiple of
`train_data_generator.batches_per_epoch`, run one validation pass.  A
`ZeroDivisionError` in the validation pass aborts the loop. -/
def trainLoop (o : Oracles L P) : List (List Tensor × List L) → Nat →
    List (Ev L P) × Option EvalError
  | [], _ => ([], none)
  | b :: rest, i =>
    let s := segment b.1 b.2 n_tbins
    let e := Ev.fit i s.1 s.2
    if (i + 1) % o.batchesPerEpoch = 0 then
      match valRun o.valBatches o.predict o.taskMetric with
      | (vtr, .error _) => (e :: vtr, some .zeroDivision)
      | (vtr, .ok _) =>
        let r := trainLoop o rest (i + 1)
        (e :: (vtr ++ r.1), r.2)
    else
      let r := trainLoop o rest (i + 1)
      (e :: r.1, r.2)

/-! ## Benign evaluation driver -/

/-- Benign phase: load the test dataset, take only the first batch (the loop
body ends in `break`), segment, predict, update the benign task metric, and
log. -/
def benignTrace (o : Oracles L P) : List (Ev L P) :=
  [Ev.loadDataset .test] ++
    (match o.testBatches with
     | [] => []
     | b :: _ =>
       let s := segment b.1 b.2 n_tbins
       [Ev.updateTask s.2 (o.predict s.1) false]) ++
    [Ev.logTask false false]

/-! ## Adversarial evaluation driver -/

/-- Preloaded targeted loop body: `x, x_adv = x`; `y, y_target = y`;
`x_adv, y_target = segment(x_adv, y_target)`; `x, y = segment(x, y)`;
predict on the adversarial segments, update the adversarial task metric with
`(y_target, y_pred_adv)` and the perturbation metric with `(x, x_adv)`. -/
def advLoopPreT (o : Oracles L P) :
    List ((List Tensor × List Tensor) × (List L × List L)) → List (Ev L P)
  | [] => []
  | b :: rest =>
    let sa := segment b.1.2 b.2.2 n_tbins
    let sb := segment b.1.1 b.2.1 n_tbins
    [Ev.updateTask sa.2 (o.predict sa.1) true, Ev.updatePerturbation sb.1 sa.1] ++
      advLoopPreT o rest

/-- Preloaded untargeted loop body: `x, x_adv = x`;
`x_adv, _ = segment(x_adv, y)` (the segmented labels of the adversarial side
are discarded); `x, y = segment(x, y)`; predict on the adversarial segments,
update the adversarial task metric with `(y, y_pred_adv)` where `y` is the
label batch obtained by segmenting the benign side. -/
def advLoopPreU (o : Oracles L P) :
    List ((List Tensor × List Tensor) × List L) → List (Ev L P)
  | [] => []
  | b :: rest =>
    let xadv := (segment b.1.2 b.2 n_tbins).1
    let sb := segment b.1.1 b.2 n_tbins
    [Ev.updateTask sb.2 (o.predict xadv) true, Ev.updatePerturbation sb.1 xadv] ++
      advLoopPreU o rest

/-- Non-preloaded loop: per batch, `use_label` wins over `targeted`
(`elif` order).  With `use_label`, segment and call
`attack.generate(x=x, y=y)`; a targeted configuration reaching this body
would then hit the unbound `y_target` (`NameError`) at the update call.
With `targeted` (not preloaded, no `use_label`), raise `NotImplementedError`.
Otherwise (default) segment discarding the segmented labels, call
`attack.generate(x=x)`, and update the adversarial task metric with the
*original* label batch `y`. -/
def advLoopGenerated (a : AttackConfig) (o : Oracles L P) :
    List (List Tensor × List L) → List (Ev L P) × Option EvalError
  | [] => ([], none)
  | b :: rest =>
    if resolveUseLabel a then
      let s := segment b.1 b.2 n_tbins
      let xadv := o.generate s.1 (some s.2)
      if resolveTargeted a then
        ([Ev.generate true], some .nameError)
      else
        let r := advLoopGenerated a o rest
        ([Ev.generate true, Ev.updateTask s.2 (o.predict xadv) true,
          Ev.updatePerturbation s.1 xadv] ++ r.1, r.2)
    else if resolveTargeted a then
      ([], some .notImplemented)
    else
      let s := segment b.1 b.2 n_tbins
      let xadv := o.generate s.1 none
      let r := advLoopGenerated a o rest
      ([Ev.generate false, Ev.updateTask b.2 (o.predict xadv) true,
        Ev.updatePerturbation s.1 xadv] ++ r.1, r.2)

/-- Adversarial evaluation phase: resolve `targeted`; raise `ValueError` when
`targeted` and `use_label` are both truthy; otherwise load the preloaded
adversarial dataset (type `"preloaded"`) or construct the attack and reload
the test dataset, run the per-batch loop, and log the adversarial task. -/
def advPhase (c : Config) (o : Oracles L P) : List (Ev L P) × Except EvalError Unit :=
  let a := c.attack
  let targeted := resolveTargeted a
  if targeted && resolveUseLabel a then (([] : List (Ev L P)), .error .valueError)
  else if a.type = some "preloaded" then
    let evs :=
      if targeted then advLoopPreT o o.advTargetedBatches
      else advLoopPreU o o.advUntargetedBatches
    ([Ev.loadDataset .adversarial] ++ evs ++ [Ev.logTask true targeted], .ok ())
  else
    match advLoopGenerated a o o.testBatches with
    | (evs, some e) => ([Ev.loadAttack, Ev.loadDataset .test] ++ evs, .error e)
    | (evs, none) =>
      ([Ev.loadAttack, Ev.loadDataset .test] ++ evs ++ [Ev.logTask true targeted],
        .ok ())

/-! ## Whole `_evaluate` run -/

/-- The whole `_evaluate` call: when `weights_file` is falsy, load the
training dataset and run the training loop (with its periodic validation
passes); then the benign phase; then the adversarial phase.  An error aborts
the run at the point it is raised. -/
def evaluate (c : Config) (o : Oracles L P) : List (Ev L P) × Except EvalError Unit :=
  let trainPart : List (Ev L P) × Option EvalError :=
    if c.model.weightsFile then ([], none)
    else
      let r := trainLoop o o.trainBatches 0
      (Ev.loadDataset .train :: r.1, r.2)
  match trainPart with
  | (ttr, some e) => (ttr, .error e)
  | (ttr, none) =>
    let r := advPhase c o
    (ttr ++ benignTrace o ++ r.1, r.2)

/-- Adversarial task-metric updates (`update_task(..., adversarial=True)`)
occurring in a trace. -/
def isAdvUpdate : Ev L P → Bool
  | .updateTask _ _ true => true
  | _ => false

/-- Events that touch the adversarial part of the run: adversarial dataset
load, attack construction, attack-generator calls, adversarial task or
perturbation updates, adversarial task logging. -/
def isAdvEvent : Ev L P → Bool
  | .loadDataset .adversarial => true
  | .loadAttack => true
  | .generate _ => true
  | .updateTask _ _ true => true
  | .updatePerturbation _ _ => true
  | .logTask true _ => true
  | _ => false

/-- `load_dataset(..., split_type="validation")` events: one per validation
pass. -/
def isValLoad : Ev L P → Bool
  | .loadDataset .validation => true
  | _ => false

/-- Attack-generator invocation events. -/
def isGenerate : Ev L P → Bool
  | .generate _ => true
  | _ => false

/-! ## Concrete fixtures for witnesses and counterexamples -/

/-- A rectangular spectrogram with 2 frequency rows and `T` time bins. -/
def specT (T : Nat) : Tensor :=
  .arr [.arr (List.replicate T (.scalar 0)), .arr (List.replicate T (.scalar 1))]

/-- A tiny spectrogram of shape `(1, 1)`. -/
def t4 : Tensor := .arr [.arr [.scalar 0]]

/-- A spectrogram with one frequency row and exactly `n_tbins = 100` time
bins, so that it yields exactly one segment. -/
def w100 : Tensor := .arr [.arr (List.replicate 100 (.scalar 0))]

/-- A small oracle assembly over `Nat` labels and `Nat` prediction batches. -/
def oSmall : Oracles Nat Nat where
  predict := fun _ => 0
  taskMetric := fun l _ => l.map (fun _ => (1 : ℚ))
  generate := fun xs _ => xs
  trainBatches := []
  batchesPerEpoch := 1
  valBatches := []
  testBatches := [([t4], [5])]
  advTargetedBatches := []
  advUntargetedBatches := []

/-- Configuration with `targeted: true` and `use_label: true` (and pretrained
weights, so training is skipped). -/
def cTU : Config := ⟨⟨true, 1⟩, 1, ⟨none, some ⟨some true⟩, some true⟩⟩

/-- Configuration that is targeted, not preloaded, without `use_label`
(`targeted: true` under `kwargs`, `type` and `use_label` absent). -/
def cT : Config := ⟨⟨true, 1⟩, 1, ⟨none, some ⟨some true⟩, none⟩⟩

/-- Preloaded targeted configuration. -/
def c5 : Config := ⟨⟨true, 1⟩, 1, ⟨some "preloaded", some ⟨some true⟩, none⟩⟩

/-- Oracles with one preloaded targeted batch whose target label batch equals
its true label batch. -/
def o5 : Oracles Nat Nat :=
  { oSmall with advTargetedBatches := [(([w100], [w100]), ([3], [3]))] }

/-- Untargeted default configuration: no `kwargs`, no `type`, no `use_label`. -/
def c6 : Config := ⟨⟨true, 1⟩, 1, ⟨none, none, none⟩⟩

/-- Oracles whose test iterator yields one window-sized batch with true
label 7. -/
def o6 : Oracles Nat Nat := { oSmall with testBatches := [([w100], [7])] }

/-- Preloaded untargeted configuration. -/
def c9 : Config := ⟨⟨true, 1⟩, 1, ⟨some "preloaded", none, none⟩⟩

/-- Oracles with one preloaded untargeted batch pairing a benign and an
adversarial spectrogram of equal width. -/
def o9 : Oracles Nat Nat :=
  { oSmall with advUntargetedBatches := [(([w100], [w100]), [4])] }

/-- Oracles with `batches_per_epoch = 3` and a validation set yielding one
segment, so a validation pass succeeds with accuracy 1. -/
def o8 : Oracles Nat Nat :=
  { oSmall with batchesPerEpoch := 3, valBatches := [([w100], [1])] }

/-! ## Lemmas about `segment` -/

theorem segmentAux_eq {L : Type} (W : Nat) (l : List (Tensor × L)) :
    segmentAux W l =
      (l.flatMap (fun p => winsOf W p.1),
       l.flatMap (fun p => List.replicate (shape1 p.1 / W) p.2)) := by
  induction l with
  | nil => rfl
  | cons p rest ih => simp [segmentAux, winsOf, ih]

theorem winsOf_length (W : Nat) (xt : Tensor) :
    (winsOf W xt).length = shape1 xt / W := by
  simp [winsOf]


theorem segment_fst {L : Type} (x : List Tensor) (y : List L) (W : Nat) :
    (segment x y W).1 = ((List.zip x y).flatMap (fun p => winsOf W p.1)).map expandLast := by
  simp [segment, segmentAux_eq]

theorem segment_snd {L : Type} (x : List Tensor) (y : List L) (W : Nat) :
    (segment x y W).2 =
      (List.zip x y).flatMap (fun p => List.replicate (shape1 p.1 / W) p.2) := by
  simp [segment, segmentAux_eq]

theorem segment_fst_length {L : Type} (x : List Tensor) (y : List L) (W : Nat)
    (h : x.length = y.length) :
    (segment x y W).1.length = (x.map (fun t => shape1 t / W)).sum := by
  rw [segment_fst, List.length_map, List.length_flatMap]
  have hmap : (x.zip y).map (fun p => (winsOf W p.1).length)
      = x.map (fun t => shape1 t / W) := by
    have : (fun p : Tensor × L => (winsOf W p.1).length)
        = (fun t => shape1 t / W) ∘ Prod.fst := by
      funext p; exact winsOf_length W p.1
    rw [this, ← List.map_map, List.map_fst_zip x y h.le]
  simp only [Function.comp_def]
  rw [hmap]

theorem segment_snd_length {L : Type} (x : List Tensor) (y : List L) (W : Nat)
    (h : x.length = y.length) :
    (segment x y W).2.length = (x.map (fun t => shape1 t / W)).sum := by
  rw [segment_snd, List.length_flatMap]
  have hmap : (x.zip y).map (fun p => (List.replicate (shape1 p.1 / W) p.2).length)
      = x.map (fun t => shape1 t / W) := by
    have : (fun p : Tensor × L => (List.replicate (shape1 p.1 / W) p.2).length)
        = (fun t => shape1 t / W) ∘ Prod.fst := by
      funext p; simp
    rw [this, ← List.map_map, List.map_fst_zip x y h.le]
  simp only [Function.comp_def]
  rw [hmap]

theorem count_flatMap_replicate_zero {α L : Type} [DecidableEq L] (f : α → Nat)
    (l : List (α × L)) (a : L) (ha : a ∉ l.map Prod.snd) :
    (l.flatMap (fun q => List.replicate (f q.1) q.2)).count a = 0 := by
  induction l with
  | nil => rfl
  | cons q rest ih =>
    simp only [List.map_cons, List.mem_cons, not_or] at ha
    simp only [List.flatMap_cons, List.count_append, List.count_replicate, beq_iff_eq]
    rw [if_neg (fun h => ha.1 h.symm), ih ha.2]

theorem count_flatMap_replicate {α L : Type} [DecidableEq L] (f : α → Nat) :
    ∀ (l : List (α × L)) (xt : α) (a : L), (l.map Prod.snd).Nodup → (xt, a) ∈ l →
      (l.flatMap (fun q => List.replicate (f q.1) q.2)).count a = f xt := by
  intro l
  induction l with
  | nil => intro xt a _ hm; cases hm
  | cons q rest ih =>
    intro xt a hnd hm
    simp only [List.map_cons, List.nodup_cons] at hnd
    simp only [List.flatMap_cons, List.count_append, List.count_replicate, beq_iff_eq]
    rcases List.mem_cons.mp hm with heq | hrest
    · have h2 : a = q.2 := by rw [← heq]
      have h1 : q.1 = xt := by rw [← heq]
      rw [if_pos h2.symm, h1, count_flatMap_replicate_zero]
      · omega
      · rw [← h2] at hnd; exact fun hmem => hnd.1 hmem
    · have hane : ¬(q.2 = a) := by
        intro h
        exact hnd.1 (h ▸ List.mem_map.mpr ⟨(xt, a), hrest, rfl⟩)
      rw [if_neg hane, ih xt a hnd.2 hrest]; omega

/-! ## Window-sized inputs -/

theorem shape1_of_hasTimeWidth {W : Nat} {t : Tensor} (h : hasTimeWidth W t = true) :
    shape1 t = W := by
  cases t with
  | scalar v => simp [hasTimeWidth] at h
  | arr l =>
    cases l with
    | nil => simp [hasTimeWidth] at h
    | cons r rs =>
      simp only [hasTimeWidth, Bool.and_eq_true, beq_iff_eq] at h
      simpa [shape1] using h.1

theorem sliceTop_self {W : Nat} {t : Tensor} (h : topLen t = W) :
    sliceTop 0 W t = t := by
  cases t with
  | scalar v => rfl
  | arr l =>
    simp only [topLen] at h
    simp only [sliceTop, List.drop_zero, Nat.sub_zero, ← h, List.take_length]

theorem slice1_self {W : Nat} {t : Tensor} (h : hasTimeWidth W t = true) :
    slice1 0 W t = t := by
  cases t with
  | scalar v => simp [hasTimeWidth] at h
  | arr l =>
    cases l with
    | nil => simp [hasTimeWidth] at h
    | cons r rs =>
      simp only [hasTimeWidth, Bool.and_eq_true, beq_iff_eq, List.all_eq_true] at h
      simp only [slice1, Tensor.arr.injEq, List.map_cons, sliceTop_self h.1,
        List.cons.injEq, true_and]
      have hid : ∀ q ∈ rs, sliceTop 0 W q = id q := by
        intro q hq; exact sliceTop_self (by simpa using h.2 q hq)
      rw [List.map_congr_left hid, List.map_id]

theorem flatMap_congr_mem {α β : Type} {l : List α} {f g : α → List β}
    (h : ∀ a ∈ l, f a = g a) : l.flatMap f = l.flatMap g := by
  induction l with
  | nil => rfl
  | cons a rest ih =>
    simp only [List.flatMap_cons]
    rw [h a (List.mem_cons_self a rest), ih (fun b hb => h b (List.mem_cons_of_mem a hb))]

theorem winsOf_window_sized {W : Nat} {t : Tensor} (hW : 0 < W)
    (h : hasTimeWidth W t = true) : winsOf W t = [t] := by
  have hs : shape1 t = W := shape1_of_hasTimeWidth h
  have hn : shape1 t / W = 1 := by rw [hs, Nat.div_self hW]
  have hr : List.range 1 = [0] := rfl
  simp only [winsOf, hn, hr, List.map_cons, List.map_nil,
    Nat.zero_mul, Nat.one_mul, Nat.zero_add, slice1_self h]

/-- The Segmenter output of a window-sized batch: every element keeps its
single window (which equals the element itself) and gains one more trailing
channel axis. -/
theorem segment_window_sized {L : Type} (x : List Tensor) (y : List L) (W : Nat)
    (hW : 0 < W) (hlen : x.length = y.length)
    (hw : ∀ t ∈ x, hasTimeWidth W t = true) :
    segment x y W = (x.map expandLast, y) := by
  have hfst : (segment x y W).1 = x.map expandLast := by
    rw [segment_fst]
    have : (x.zip y).flatMap (fun p => winsOf W p.1) = (x.zip y).map Prod.fst := by
      have hcong : ∀ p ∈ x.zip y, winsOf W p.1 = [p.1] := by
        intro p hp
        exact winsOf_window_sized hW (hw p.1 (List.of_mem_zip hp).1)
      calc (x.zip y).flatMap (fun p => winsOf W p.1)
          = (x.zip y).flatMap (fun p => [p.1]) := flatMap_congr_mem hcong
        _ = (x.zip y).map Prod.fst := ((x.zip y).map_eq_flatMap Prod.fst).symm
    rw [this, List.map_fst_zip x y hlen.le]
  have hsnd : (segment x y W).2 = y := by
    rw [segment_snd]
    have hcong : ∀ p ∈ x.zip y, List.replicate (shape1 p.1 / W) p.2 = [p.2] := by
      intro p hp
      have hs : shape1 p.1 = W := shape1_of_hasTimeWidth (hw p.1 (List.of_mem_zip hp).1)
      rw [hs, Nat.div_self hW, List.replicate_one]
    calc (x.zip y).flatMap (fun p => List.replicate (shape1 p.1 / W) p.2)
        = (x.zip y).flatMap (fun p => [p.2]) := flatMap_congr_mem hcong
      _ = (x.zip y).map Prod.snd := ((x.zip y).map_eq_flatMap Prod.snd).symm
      _ = y := List.map_snd_zip x y hlen.ge
  exact Prod.ext hfst hsnd

/-! ## Segment counts and label provenance -/

theorem count_zero_prov_map (l : List Nat) : ((prov l).map (· + 1)).count 0 = 0 := by
  rw [List.count_eq_zero]
  intro h
  rcases List.mem_map.mp h with ⟨a, _, ha⟩
  omega

/-- Two segment-count lists with the same number of examples induce the same
label-to-prediction provenance exactly when they agree example by example. -/
theorem prov_inj : ∀ ns ms : List Nat, ns.length = ms.length →
    (prov ns = prov ms ↔ ns = ms) := by
  intro ns
  induction ns with
  | nil =>
    intro ms h
    have : ms = [] := List.length_eq_zero.mp h.symm
    subst this; simp
  | cons n rest ih =>
    intro ms h
    cases ms with
    | nil => simp at h
    | cons m mrest =>
      simp only [List.length_cons, Nat.add_right_cancel_iff] at h
      constructor
      · intro hp
        have hcnt := congrArg (fun l => l.count 0) hp
        simp only [prov, List.count_append, List.count_replicate, if_pos rfl,
          count_zero_prov_map, beq_self_eq_true] at hcnt
        have hnm : n = m := by simpa using hcnt
        subst hnm
        simp only [prov, List.append_cancel_left_eq] at hp
        have : prov rest = prov mrest :=
          List.map_injective_iff.mpr (fun a b hab => by omega) hp
        rw [(ih mrest h).mp this]
      · intro he; rw [he]

/-! ## Lemmas about the drivers -/

theorem valRun_ok_trace {L P : Type} (batches : List (List Tensor × List L))
    (predict : List Tensor → P) (metric : List L → P → List ℚ) (q : ℚ)
    (h : (valRun batches predict metric).2 = .ok q) :
    valRun batches predict metric =
      ([Ev.loadDataset .validation, Ev.validationAccuracy q], .ok q) := by
  by_cases hc : valTotal batches predict metric = 0
  · rw [valRun, if_pos hc] at h
    exact absurd h (by simp)
  · rw [valRun, if_neg hc] at h ⊢
    simp only [Except.ok.injEq] at h
    rw [h]

theorem valRun_err_trace {L P : Type} (batches : List (List Tensor × List L))
    (predict : List Tensor → P) (metric : List L → P → List ℚ)
    (h : ∀ q, (valRun batches predict metric).2 ≠ .ok q) :
    valRun batches predict metric = ([Ev.loadDataset .validation], .error .zeroDivision) := by
  by_cases hc : valTotal batches predict metric = 0
  · rw [valRun, if_pos hc]
  · rw [valRun, if_neg hc] at h
    exact absurd rfl (h _)

theorem valRun_no_adv {L P : Type} (batches : List (List Tensor × List L))
    (predict : List Tensor → P) (metric : List L → P → List ℚ) :
    ∀ e ∈ (valRun batches predict metric).1, isAdvEvent e = false := by
  intro e he
  by_cases hc : valTotal batches predict metric = 0
  · rw [valRun, if_pos hc] at he
    simp only [List.mem_singleton] at he
    subst he; rfl
  · rw [valRun, if_neg hc] at he
    simp only [List.mem_cons, List.not_mem_nil, or_false] at he
    rcases he with h | h <;> subst h <;> rfl

theorem trainLoop_result {L P : Type} (o : Oracles L P) :
    ∀ (batches : List (List Tensor × List L)) (i : Nat),
      (trainLoop o batches i).2 = none ∨ (trainLoop o batches i).2 = some .zeroDivision := by
  intro batches
  induction batches with
  | nil => intro i; left; rfl
  | cons b rest ih =>
    intro i
    unfold trainLoop
    split
    · split
      · right; rfl
      · simpa using ih (i + 1)
    · simpa using ih (i + 1)

theorem trainLoop_no_adv {L P : Type} (o : Oracles L P) :
    ∀ (batches : List (List Tensor × List L)) (i : Nat),
      ∀ e ∈ (trainLoop o batches i).1, isAdvEvent e = false := by
  intro batches
  induction batches with
  | nil => intro i e he; cases he
  | cons b rest ih =>
    intro i e he
    have hval := valRun_no_adv o.valBatches o.predict o.taskMetric e
    simp only [trainLoop] at he
    split at he
    · rcases hv : valRun o.valBatches o.predict o.taskMetric with ⟨vtr, vres⟩
      rw [hv] at he hval
      cases vres with
      | error err =>
        simp only [List.mem_cons, List.not_mem_nil, or_false] at he
        rcases he with h | h
        · subst h; rfl
        · exact hval h
      | ok q =>
        simp only [List.mem_cons, List.mem_append] at he
        rcases he with h | h | h
        · subst h; rfl
        · exact hval h
        · exact ih (i + 1) e h
    · simp only [List.mem_cons] at he
      rcases he with h | h
      · subst h; rfl
      · exact ih (i + 1) e h

theorem benignTrace_no_adv {L P : Type} (o : Oracles L P) :
    ∀ e ∈ benignTrace o, isAdvEvent e = false := by
  intro e he
  unfold benignTrace at he
  rcases htb : o.testBatches with _ | ⟨b, rest⟩ <;> rw [htb] at he <;>
    simp only [List.mem_append, List.mem_cons, List.mem_singleton,
      List.not_mem_nil, or_false, false_or] at he
  · rcases he with h | h <;> subst h <;> rfl
  · rcases he with (h | h) | h <;> subst h <;> rfl

theorem advLoopPreT_updates {L P : Type} (o : Oracles L P) :
    ∀ l, (advLoopPreT o l).filter isAdvUpdate =
      l.map (fun b =>
        Ev.updateTask (segment b.1.2 b.2.2 n_tbins).2
          (o.predict ((segment b.1.2 b.2.2 n_tbins).1)) true) := by
  intro l
  induction l with
  | nil => rfl
  | cons b rest ih =>
    simp only [advLoopPreT, List.filter_append, List.map_cons, List.filter_cons]
    rw [ih]; rfl

theorem advLoopPreU_updates {L P : Type} (o : Oracles L P) :
    ∀ l, (advLoopPreU o l).filter isAdvUpdate =
      l.map (fun b =>
        Ev.updateTask (segment b.1.1 b.2 n_tbins).2
          (o.predict ((segment b.1.2 b.2 n_tbins).1)) true) := by
  intro l
  induction l with
  | nil => rfl
  | cons b rest ih =>
    simp only [advLoopPreU, List.filter_append, List.map_cons, List.filter_cons]
    rw [ih]; rfl

theorem advLoopGenerated_useLabel {L P : Type} (a : AttackConfig) (o : Oracles L P)
    (hu : resolveUseLabel a = true) (ht : resolveTargeted a = false) :
    ∀ l, advLoopGenerated a o l =
      (l.flatMap (fun b =>
        [Ev.generate true,
         Ev.updateTask (segment b.1 b.2 n_tbins).2
           (o.predict (o.generate (segment b.1 b.2 n_tbins).1
             (some (segment b.1 b.2 n_tbins).2))) true,
         Ev.updatePerturbation (segment b.1 b.2 n_tbins).1
           (o.generate (segment b.1 b.2 n_tbins).1
             (some (segment b.1 b.2 n_tbins).2))]), none) := by
  intro l
  induction l with
  | nil => rfl
  | cons b rest ih =>
    simp only [advLoopGenerated, hu, ht, if_true, if_false, Bool.false_eq_true,
      List.flatMap_cons, ih]

theorem advLoopGenerated_default {L P : Type} (a : AttackConfig) (o : Oracles L P)
    (hu : resolveUseLabel a = false) (ht : resolveTargeted a = false) :
    ∀ l, advLoopGenerated a o l =
      (l.flatMap (fun b =>
        [Ev.generate false,
         Ev.updateTask b.2
           (o.predict (o.generate (segment b.1 b.2 n_tbins).1 none)) true,
         Ev.updatePerturbation (segment b.1 b.2 n_tbins).1
           (o.generate (segment b.1 b.2 n_tbins).1 none)]), none) := by
  intro l
  induction l with
  | nil => rfl
  | cons b rest ih =>
    simp only [advLoopGenerated, hu, ht, if_false, Bool.false_eq_true,
      List.flatMap_cons, ih]

theorem advLoopGenerated_targeted {L P : Type} (a : AttackConfig) (o : Oracles L P)
    (hu : resolveUseLabel a = false) (ht : resolveTargeted a = true)
    (b : List Tensor × List L) (rest : List (List Tensor × List L)) :
    advLoopGenerated a o (b :: rest) = ([], some .notImplemented) := by
  simp only [advLoopGenerated, hu, ht, if_true, if_false, Bool.false_eq_true]

theorem advLoopGenerated_congr {L P : Type} (a a' : AttackConfig) (o : Oracles L P)
    (h1 : resolveUseLabel a = resolveUseLabel a')
    (h2 : resolveTargeted a = resolveTargeted a') :
    ∀ l, advLoopGenerated a o l = advLoopGenerated a' o l := by
  intro l
  induction l with
  | nil => rfl
  | cons b rest ih =>
    simp only [advLoopGenerated, h1, h2, ih]

theorem filter_flatMap_three {L P : Type} {α : Type} (l : List α)
    (f g : α → Ev L P) (sel : α → Ev L P)
    (hf : ∀ b, isAdvUpdate (f b) = false) (hs : ∀ b, isAdvUpdate (sel b) = true)
    (hg : ∀ b, isAdvUpdate (g b) = false) :
    (l.flatMap (fun b => [f b, sel b, g b])).filter isAdvUpdate = l.map sel := by
  induction l with
  | nil => rfl
  | cons b rest ih =>
    simp only [List.flatMap_cons, List.filter_append, List.filter_cons,
      hf b, hs b, hg b, List.map_cons]
    simpa using ih

/-! ## Claims -/

/-- C1: for every spectrogram batch, every aligned label batch of the same
length, and window width `W > 0`, the Segmenter emits exactly `⌊T_i/W⌋`
segments for example `i` (an example with `T_i < W` contributes zero segments
and zero labels), the total output length equals the sum of `⌊T_i/W⌋` over all
examples (for both the segment list and the label list), the output labels are
the per-example labels each replicated `⌊T_i/W⌋` times in order, and (for
pairwise-distinct labels) the label of example `i` occurs in the output
exactly `⌊T_i/W⌋` times. -/
theorem C1_segment_counts {L : Type} [DecidableEq L] (x : List Tensor) (y : List L)
    (W : Nat) (hW : 0 < W) (hlen : x.length = y.length) :
    (segment x y W).1.length = (x.map (fun t => shape1 t / W)).sum ∧
    (segment x y W).2.length = (x.map (fun t => shape1 t / W)).sum ∧
    (segment x y W).2 =
      (x.zip y).flatMap (fun p => List.replicate (shape1 p.1 / W) p.2) ∧
    (∀ (xt : Tensor) (lab : L), (xt, lab) ∈ x.zip y → y.Nodup →
      (segment x y W).2.count lab = shape1 xt / W) := by
  refine ⟨segment_fst_length x y W hlen, segment_snd_length x y W hlen,
    segment_snd x y W, ?_⟩
  intro xt lab hm hnd
  rw [segment_snd]
  exact count_flatMap_replicate (fun t => shape1 t / W) (x.zip y) xt lab
    (by rw [List.map_snd_zip x y hlen.ge]; exact hnd) hm

/-- Witness for C1: two spectrograms with `T = 5` and `T = 1` at `W = 2`
give `2 + 0` segments; the first label occurs twice, the second (whose
example is shorter than the window) zero times. -/
theorem C1_segment_counts_witness :
    (segment [specT 5, specT 1] [(10 : Nat), 20] 2).1.length = 2 ∧
    (segment [specT 5, specT 1] [(10 : Nat), 20] 2).2.count 10 = 2 ∧
    (segment [specT 5, specT 1] [(10 : Nat), 20] 2).2.count 20 = 0 := by
  have h := C1_segment_counts [specT 5, specT 1] [(10 : Nat), 20] 2
    (by decide) (by decide)
  refine ⟨h.1.trans (by decide), ?_, ?_⟩
  · exact (h.2.2.2 (specT 5) 10 (by decide) (by decide)).trans (by decide)
  · exact (h.2.2.2 (specT 1) 20 (by decide) (by decide)).trans (by decide)

/-- C3 counterexample: a validation pass whose iterator yields zero batches
does hit the division fault — `valRun` on an empty batch list returns the
`ZeroDivisionError` outcome, and no degenerate-result warning event is
emitted. -/
theorem C3_counterexample :
    valRun ([] : List (List Tensor × List Nat)) (fun _ => (0 : Nat)) (fun _ _ => []) =
      ([Ev.loadDataset .validation], .error .zeroDivision) := rfl

/-- C3 (amended): whenever the total validation segment count is zero — in
particular when the iterator yields zero batches — the division
`correct / total` raises `ZeroDivisionError`; the driver crashes rather than
surfacing a degenerate-result warning. -/
theorem C3_zero_total_divfault {L P : Type} (batches : List (List Tensor × List L))
    (predict : List Tensor → P) (metric : List L → P → List ℚ)
    (h : valTotal batches predict metric = 0) :
    valRun batches predict metric =
      ([Ev.loadDataset .validation], .error .zeroDivision) := by
  rw [valRun, if_pos h]

/-- Witness for the amended C3: a batch whose only example is shorter than the
window also yields total `0` and the same division fault. -/
theorem C3_zero_total_divfault_witness :
    valTotal [([t4], [(5 : Nat)])] (fun _ => (0 : Nat)) (fun _ _ => []) = 0 ∧
    valRun [([t4], [(5 : Nat)])] (fun _ => (0 : Nat)) (fun _ _ => []) =
      ([Ev.loadDataset .validation], .error .zeroDivision) :=
  ⟨by decide, C3_zero_total_divfault _ _ _ (by decide)⟩

/-- C4 counterexample: re-segmenting a once-segmented, already-window-sized
batch (every element has exactly `W = 1` time bins) does not return it
unchanged: each window gains one more trailing singleton channel axis. -/
theorem C4_counterexample :
    (∀ t ∈ (segment [t4] [(0 : Nat)] 1).1, hasTimeWidth 1 t = true) ∧
    segment (segment [t4] [(0 : Nat)] 1).1 (segment [t4] [(0 : Nat)] 1).2 1 ≠
      segment [t4] [(0 : Nat)] 1 := by decide

/-- C4 (amended): the Segmenter is deterministic, and re-segmenting a
window-sized batch (each element exactly `W` time bins wide, `n_i = 1`,
remainder `0`) returns the labels unchanged and each window unchanged except
for one additional trailing singleton channel dimension (`expand_dims`):
the output is `(x.map expandLast, y)`, not `(x, y)`. -/
theorem C4_deterministic_resegment {L : Type} (x : List Tensor) (y : List L)
    (W : Nat) (hW : 0 < W) (hlen : x.length = y.length)
    (hw : ∀ t ∈ x, hasTimeWidth W t = true) :
    (∀ x' y', x' = x → y' = y → segment x' y' W = segment x y W) ∧
    segment x y W = (x.map expandLast, y) :=
  ⟨fun x' y' hx hy => by rw [hx, hy], segment_window_sized x y W hW hlen hw⟩

/-- Witness for the amended C4: the once-segmented batch over `t4` is
window-sized, and re-segmenting it maps `expandLast` over the windows while
keeping the labels. -/
theorem C4_deterministic_resegment_witness :
    segment (segment [t4] [(0 : Nat)] 1).1 (segment [t4] [(0 : Nat)] 1).2 1 =
      ((segment [t4] [(0 : Nat)] 1).1.map expandLast, (segment [t4] [(0 : Nat)] 1).2) :=
  (C4_deterministic_resegment (segment [t4] [(0 : Nat)] 1).1
    (segment [t4] [(0 : Nat)] 1).2 1 (by decide) (by decide) (by decide)).2

/-- C2 counterexample: with `targeted` and `use_label` both true, the run does
raise the configuration `ValueError` — but only after the test dataset has
been loaded and its first batch consumed by the benign phase, so dataset
access does occur before the error. -/
theorem C2_counterexample :
    (evaluate cTU oSmall).2 = .error .valueError ∧
    Ev.loadDataset Split.test ∈ (evaluate cTU oSmall).1 ∧
    Ev.updateTask (segment [t4] [(5 : Nat)] n_tbins).2
      (oSmall.predict (segment [t4] [(5 : Nat)] n_tbins).1) false ∈
        (evaluate cTU oSmall).1 := by
  refine ⟨rfl, ?_, ?_⟩ <;> decide

/-- C2 (amended): for every configuration with `targeted` and `use_label`
both true, the run never reaches any adversarial dataset access, attack
construction, generator call, or adversarial metric update; it ends in the
configuration `ValueError` — unless a validation pass aborted the training
loop earlier with `ZeroDivisionError` — but only after the training /
validation / benign-test phases, which may access their datasets first. -/
theorem C2_targeted_useLabel_error {L P : Type} (c : Config) (o : Oracles L P)
    (ht : resolveTargeted c.attack = true) (hu : resolveUseLabel c.attack = true) :
    ((evaluate c o).2 = .error .valueError ∨ (evaluate c o).2 = .error .zeroDivision) ∧
    ∀ e ∈ (evaluate c o).1, isAdvEvent e = false := by
  have hadv : advPhase c o = ([], .error .valueError) := by
    simp [advPhase, ht, hu]
  by_cases hw : c.model.weightsFile
  · have hev : evaluate c o = ([] ++ benignTrace o ++ [], .error .valueError) := by
      simp only [evaluate, hw, if_true, hadv]
    rw [hev]
    refine ⟨Or.inl rfl, ?_⟩
    intro e he
    simp only [List.nil_append, List.append_nil] at he
    exact benignTrace_no_adv o e he
  · rcases hr : trainLoop o o.trainBatches 0 with ⟨ttr, tres⟩
    have hres := trainLoop_result o o.trainBatches 0
    rw [hr] at hres
    have htre : ∀ e ∈ ttr, isAdvEvent e = false := by
      intro e he
      have := trainLoop_no_adv o o.trainBatches 0 e
      rw [hr] at this
      exact this he
    cases tres with
    | some err =>
      have herr : err = .zeroDivision := by
        rcases hres with h | h
        · exact absurd h (by simp)
        · simpa using h
      have hev : evaluate c o =
          (Ev.loadDataset .train :: ttr, .error .zeroDivision) := by
        simp only [evaluate, hw, if_false, Bool.false_eq_true, hr, herr]
      rw [hev]
      refine ⟨Or.inr rfl, ?_⟩
      intro e he
      simp only [List.mem_cons] at he
      rcases he with h | h
      · subst h; rfl
      · exact htre e h
    | none =>
      have hev : evaluate c o =
          ((Ev.loadDataset .train :: ttr) ++ benignTrace o ++ [],
            .error .valueError) := by
        simp only [evaluate, hw, if_false, Bool.false_eq_true, hr, hadv]
      rw [hev]
      refine ⟨Or.inl rfl, ?_⟩
      intro e he
      simp only [List.append_nil, List.mem_append, List.mem_cons] at he
      rcases he with (h | h) | h
      · subst h; rfl
      · exact htre e h
      · exact benignTrace_no_adv o e h

/-- Witness for the amended C2: the concrete targeted+use_label configuration
ends in `ValueError` and its trace contains no adversarial event. -/
theorem C2_targeted_useLabel_error_witness :
    ((evaluate cTU oSmall).2 = .error .valueError ∨
      (evaluate cTU oSmall).2 = .error .zeroDivision) ∧
    ∀ e ∈ (evaluate cTU oSmall).1, isAdvEvent e = false :=
  C2_targeted_useLabel_error cTU oSmall rfl rfl

/-- C7: for every configuration that is targeted and not preloaded (attack
type is not `"preloaded"`, `use_label` false), the adversarial driver raises
`NotImplementedError` as soon as the per-batch branch is reached (the test
iterator yields at least one batch); no adversarial task update and no
generator call ever happens — it does not degrade to untargeted behaviour. -/
theorem C7_targeted_unimplemented {L P : Type} (c : Config) (o : Oracles L P)
    (ht : resolveTargeted c.attack = true) (hu : resolveUseLabel c.attack = false)
    (hp : c.attack.type ≠ some "preloaded") (hne : o.testBatches ≠ []) :
    advPhase c o = ([Ev.loadAttack, Ev.loadDataset .test], .error .notImplemented) ∧
    (advPhase c o).1.filter isAdvUpdate = [] ∧
    ∀ e ∈ (advPhase c o).1, isGenerate e = false := by
  rcases List.exists_cons_of_ne_nil hne with ⟨b, rest, hbr⟩
  have hloop : advLoopGenerated c.attack o o.testBatches = ([], some .notImplemented) := by
    rw [hbr]; exact advLoopGenerated_targeted c.attack o hu ht b rest
  have hph : advPhase c o =
      ([Ev.loadAttack, Ev.loadDataset .test], .error .notImplemented) := by
    simp [advPhase, ht, hu, hp, hloop]
  refine ⟨hph, ?_, ?_⟩
  · rw [hph]; rfl
  · rw [hph]
    intro e he
    simp only [List.mem_cons, List.not_mem_nil, or_false] at he
    rcases he with h | h <;> subst h <;> rfl

/-- Witness for C7 at a concrete targeted non-preloaded configuration with a
nonempty test iterator. -/
theorem C7_targeted_unimplemented_witness :
    resolveTargeted cT.attack = true ∧ resolveUseLabel cT.attack = false ∧
    cT.attack.type ≠ some "preloaded" ∧ oSmall.testBatches ≠ [] ∧
    advPhase cT oSmall = ([Ev.loadAttack, Ev.loadDataset .test], .error .notImplemented) :=
  ⟨rfl, rfl, by decide, by decide,
    (C7_targeted_unimplemented cT oSmall rfl rfl (by decide) (by decide)).1⟩

/-- C5: for every targeted adversarial evaluation (preloaded, the only
targeted path that runs), the adversarial task updates received by the
metrics aggregator are exactly, batch for batch, the segmented *target* label
batch paired with the predictions on the adversarial segments — with no
filtering whatsoever, in particular segments where the target label equals
the true label are kept. -/
theorem C5_targeted_routing {L P : Type} (c : Config) (o : Oracles L P)
    (ht : resolveTargeted c.attack = true) (hp : c.attack.type = some "preloaded")
    (hu : resolveUseLabel c.attack = false) :
    (advPhase c o).2 = .ok () ∧
    (advPhase c o).1.filter isAdvUpdate =
      o.advTargetedBatches.map (fun b =>
        Ev.updateTask (segment b.1.2 b.2.2 n_tbins).2
          (o.predict ((segment b.1.2 b.2.2 n_tbins).1)) true) := by
  have h1 : advPhase c o =
      ([Ev.loadDataset .adversarial] ++ advLoopPreT o o.advTargetedBatches ++
        [Ev.logTask true true], .ok ()) := by
    simp [advPhase, ht, hu, hp]
  rw [h1]
  refine ⟨rfl, ?_⟩
  simp only [List.filter_append, advLoopPreT_updates o o.advTargetedBatches]
  simp [isAdvUpdate]

/-- Witness for C5: a preloaded targeted batch whose target labels equal the
true labels still produces the full (unfiltered) adversarial update. -/
theorem C5_targeted_routing_witness :
    resolveTargeted c5.attack = true ∧ c5.attack.type = some "preloaded" ∧
    (advPhase c5 o5).1.filter isAdvUpdate = [Ev.updateTask [3] 0 true] :=
  ⟨rfl, rfl, ((C5_targeted_routing c5 o5 rfl rfl rfl).2).trans (by decide)⟩

/-- C6: for every untargeted adversarial evaluation (`targeted` resolves to
false), the adversarial task updates the metrics aggregator receives are
derived from the *true* labels — never a target label: on the preloaded path
they are the labels from segmenting the benign example; on the
label-conditioned path the labels from segmenting the test batch; on the
default path the original (unsegmented) true label batch. -/
theorem C6_untargeted_routing {L P : Type} (c : Config) (o : Oracles L P)
    (ht : resolveTargeted c.attack = false) :
    (c.attack.type = some "preloaded" →
      (advPhase c o).1.filter isAdvUpdate =
        o.advUntargetedBatches.map (fun b =>
          Ev.updateTask (segment b.1.1 b.2 n_tbins).2
            (o.predict ((segment b.1.2 b.2 n_tbins).1)) true)) ∧
    (c.attack.type ≠ some "preloaded" → resolveUseLabel c.attack = true →
      (advPhase c o).1.filter isAdvUpdate =
        o.testBatches.map (fun b =>
          Ev.updateTask (segment b.1 b.2 n_tbins).2
            (o.predict (o.generate (segment b.1 b.2 n_tbins).1
              (some (segment b.1 b.2 n_tbins).2))) true)) ∧
    (c.attack.type ≠ some "preloaded" → resolveUseLabel c.attack = false →
      (advPhase c o).1.filter isAdvUpdate =
        o.testBatches.map (fun b =>
          Ev.updateTask b.2
            (o.predict (o.generate (segment b.1 b.2 n_tbins).1 none)) true)) := by
  refine ⟨?_, ?_, ?_⟩
  · intro hp
    have h1 : advPhase c o =
        ([Ev.loadDataset .adversarial] ++ advLoopPreU o o.advUntargetedBatches ++
          [Ev.logTask true false], .ok ()) := by
      simp [advPhase, ht, hp]
    rw [h1]
    simp only [List.filter_append, advLoopPreU_updates o o.advUntargetedBatches]
    simp [isAdvUpdate]
  · intro hp hu
    have hloop := advLoopGenerated_useLabel c.attack o hu ht o.testBatches
    have h1 : advPhase c o =
        ([Ev.loadAttack, Ev.loadDataset .test] ++
          (o.testBatches.flatMap (fun b =>
            [Ev.generate true,
             Ev.updateTask (segment b.1 b.2 n_tbins).2
               (o.predict (o.generate (segment b.1 b.2 n_tbins).1
                 (some (segment b.1 b.2 n_tbins).2))) true,
             Ev.updatePerturbation (segment b.1 b.2 n_tbins).1
               (o.generate (segment b.1 b.2 n_tbins).1
                 (some (segment b.1 b.2 n_tbins).2))])) ++
          [Ev.logTask true false], .ok ()) := by
      simp [advPhase, ht, hp, hloop]
    rw [h1]
    simp only [List.filter_append]
    rw [filter_flatMap_three o.testBatches
      (fun _ => Ev.generate true)
      (fun b => Ev.updatePerturbation (segment b.1 b.2 n_tbins).1
        (o.generate (segment b.1 b.2 n_tbins).1 (some (segment b.1 b.2 n_tbins).2)))
      (fun b => Ev.updateTask (segment b.1 b.2 n_tbins).2
        (o.predict (o.generate (segment b.1 b.2 n_tbins).1
          (some (segment b.1 b.2 n_tbins).2))) true)
      (fun _ => rfl) (fun _ => rfl) (fun _ => rfl)]
    simp [isAdvUpdate]
  · intro hp hu
    have hloop := advLoopGenerated_default c.attack o hu ht o.testBatches
    have h1 : advPhase c o =
        ([Ev.loadAttack, Ev.loadDataset .test] ++
          (o.testBatches.flatMap (fun b =>
            [Ev.generate false,
             Ev.updateTask b.2
               (o.predict (o.generate (segment b.1 b.2 n_tbins).1 none)) true,
             Ev.updatePerturbation (segment b.1 b.2 n_tbins).1
               (o.generate (segment b.1 b.2 n_tbins).1 none)])) ++
          [Ev.logTask true false], .ok ()) := by
      simp [advPhase, ht, hp, hloop]
    rw [h1]
    simp only [List.filter_append]
    rw [filter_flatMap_three o.testBatches
      (fun _ => Ev.generate false)
      (fun b => Ev.updatePerturbation (segment b.1 b.2 n_tbins).1
        (o.generate (segment b.1 b.2 n_tbins).1 none))
      (fun b => Ev.updateTask b.2
        (o.predict (o.generate (segment b.1 b.2 n_tbins).1 none)) true)
      (fun _ => rfl) (fun _ => rfl) (fun _ => rfl)]
    simp [isAdvUpdate]

/-- Witness for C6 on the default untargeted path: the adversarial update
carries the original true label batch `[7]`, not any target label. -/
theorem C6_untargeted_routing_witness :
    resolveTargeted c6.attack = false ∧
    (advPhase c6 o6).1.filter isAdvUpdate = [Ev.updateTask [7] 0 true] :=
  ⟨rfl, ((C6_untargeted_routing c6 o6 rfl).2.2 (by decide) rfl).trans (by decide)⟩

/-- C9: on the preloaded untargeted path, the adversarial task update carries
the label batch obtained by segmenting the *benign* example against the true
labels, paired with predictions on the pre-supplied adversarial segments (the
labels produced by segmenting the adversarial example are discarded); the
number of labels is the sum of the benign per-example segment counts while
the number of prediction segments follows the adversarial counts, and the
label-to-prediction provenance of the two sides coincides exactly when every
benign/adversarial pair yields the same segment count. -/
theorem C9_preloaded_untargeted {L P : Type} (c : Config) (o : Oracles L P)
    (ht : resolveTargeted c.attack = false) (hp : c.attack.type = some "preloaded") :
    (advPhase c o).1.filter isAdvUpdate =
      o.advUntargetedBatches.map (fun b =>
        Ev.updateTask (segment b.1.1 b.2 n_tbins).2
          (o.predict ((segment b.1.2 b.2 n_tbins).1)) true) ∧
    (∀ (xb : List Tensor) (y : List L), xb.length = y.length →
      (segment xb y n_tbins).1.length = (segCounts n_tbins xb).sum ∧
      (segment xb y n_tbins).2.length = (segCounts n_tbins xb).sum) ∧
    (∀ xb xa : List Tensor, xb.length = xa.length →
      (prov (segCounts n_tbins xb) = prov (segCounts n_tbins xa) ↔
        segCounts n_tbins xb = segCounts n_tbins xa)) := by
  refine ⟨?_, ?_, ?_⟩
  · have h1 : advPhase c o =
        ([Ev.loadDataset .adversarial] ++ advLoopPreU o o.advUntargetedBatches ++
          [Ev.logTask true false], .ok ()) := by
      simp [advPhase, ht, hp]
    rw [h1]
    simp only [List.filter_append, advLoopPreU_updates o o.advUntargetedBatches]
    simp [isAdvUpdate]
  · intro xb y hlen
    exact ⟨segment_fst_length xb y n_tbins hlen, segment_snd_length xb y n_tbins hlen⟩
  · intro xb xa hlen
    exact prov_inj (segCounts n_tbins xb) (segCounts n_tbins xa)
      (by simp [segCounts, hlen])

/-- Witness for C9: the single preloaded untargeted batch routes the
benign-side labels `[4]` with the adversarial-side predictions, and the two
sides have equal provenance since both yield one segment. -/
theorem C9_preloaded_untargeted_witness :
    resolveTargeted c9.attack = false ∧ c9.attack.type = some "preloaded" ∧
    (advPhase c9 o9).1.filter isAdvUpdate = [Ev.updateTask [4] 0 true] ∧
    (prov (segCounts n_tbins [w100]) = prov (segCounts n_tbins [w100]) ↔
      segCounts n_tbins [w100] = segCounts n_tbins [w100]) :=
  ⟨rfl, rfl,
    ((C9_preloaded_untargeted c9 o9 rfl rfl).1).trans (by decide),
    (C9_preloaded_untargeted c9 o9 rfl rfl).2.2 [w100] [w100] rfl⟩

/-- C10: an attack configuration with no `kwargs` section, or whose `kwargs`
lacks the `targeted` key, resolves `targeted` to false; the adversarial
driver behaves exactly as with an explicit `targeted: false` and completes
without error — the missing flag is not an error. -/
theorem C10_missing_targeted {L P : Type} (c : Config) (o : Oracles L P)
    (h : c.attack.kwargs = none ∨
      ∃ k, c.attack.kwargs = some k ∧ k.targeted = none) :
    resolveTargeted c.attack = false ∧
    (advPhase c o).2 = .ok () ∧
    advPhase c o =
      advPhase { c with attack := { c.attack with kwargs := some ⟨some false⟩ } } o := by
  have ht : resolveTargeted c.attack = false := by
    rcases h with h | ⟨k, hk, hkt⟩
    · simp [resolveTargeted, h]
    · simp [resolveTargeted, hk, hkt, Option.getD]
  have hloopok : ∀ l, (advLoopGenerated c.attack o l).2 = none := by
    intro l
    induction l with
    | nil => rfl
    | cons b rest ih =>
      simp only [advLoopGenerated, ht, Bool.false_eq_true, if_false]
      by_cases hu : resolveUseLabel c.attack = true
      · simp only [hu, if_true]
        simpa using ih
      · simp only [Bool.not_eq_true] at hu
        simp only [hu, Bool.false_eq_true, if_false]
        simpa using ih
  have hok : (advPhase c o).2 = .ok () := by
    by_cases hp : c.attack.type = some "preloaded"
    · simp [advPhase, ht, hp]
    · rcases hlg : advLoopGenerated c.attack o o.testBatches with ⟨evs, eres⟩
      have := hloopok o.testBatches
      rw [hlg] at this
      subst this
      simp [advPhase, ht, hp, hlg]
  refine ⟨ht, hok, ?_⟩
  have ht2 : ∀ (ty : Option String) (ul : Option Bool),
      resolveTargeted ⟨ty, some ⟨some false⟩, ul⟩ = false := fun _ _ => rfl
  have hcongr := advLoopGenerated_congr c.attack
    { c.attack with kwargs := some ⟨some false⟩ } o rfl (by rw [ht, ht2])
  by_cases hp : c.attack.type = some "preloaded"
  · simp [advPhase, ht, ht2, hp]
  · simp [advPhase, ht, ht2, hp, hcongr o.testBatches]

/-- Witness for C10: a configuration with no `kwargs` at all (but with
`use_label` set) runs the untargeted label-conditioned path successfully. -/
theorem C10_missing_targeted_witness :
    resolveTargeted (⟨⟨true, 1⟩, 1, ⟨none, none, some true⟩⟩ : Config).attack = false ∧
    (advPhase (⟨⟨true, 1⟩, 1, ⟨none, none, some true⟩⟩ : Config) o6).2 = .ok () :=
  ⟨(C10_missing_targeted (⟨⟨true, 1⟩, 1, ⟨none, none, some true⟩⟩ : Config) o6
      (Or.inl rfl)).1,
    (C10_missing_targeted (⟨⟨true, 1⟩, 1, ⟨none, none, some true⟩⟩ : Config) o6
      (Or.inl rfl)).2.1⟩

theorem trainLoop_trace {L P : Type} (o : Oracles L P) (acc : ℚ)
    (hacc : (valRun o.valBatches o.predict o.taskMetric).2 = .ok acc) :
    ∀ (batches : List (List Tensor × List L)) (i : Nat),
      trainLoop o batches i =
        ((List.enumFrom i batches).flatMap (fun p =>
          Ev.fit p.1 (segment p.2.1 p.2.2 n_tbins).1 (segment p.2.1 p.2.2 n_tbins).2 ::
            (if (p.1 + 1) % o.batchesPerEpoch = 0 then
              [Ev.loadDataset .validation, Ev.validationAccuracy acc] else [])),
         none) := by
  have hval := valRun_ok_trace o.valBatches o.predict o.taskMetric acc hacc
  intro batches
  induction batches with
  | nil => intro i; rfl
  | cons b rest ih =>
    intro i
    by_cases hc : (i + 1) % o.batchesPerEpoch = 0
    · simp only [trainLoop, hc, if_true, hval, List.enumFrom, List.flatMap_cons,
        ih (i + 1), List.cons_append, List.nil_append]
    · simp only [trainLoop, hc, if_false, List.enumFrom, List.flatMap_cons,
        ih (i + 1), List.cons_append, List.nil_append]

/-- C8: for a training run with `nb_epochs = 1` and `batches_per_epoch = 3`
(so the epoch-expanded iterator yields exactly three batches), the training
driver triggers exactly one validation pass, occurring right after the 3rd
training batch; in general the trace interleaves one validation pass after
exactly those batches whose 1-based ordinal is an exact multiple of
`batches_per_epoch`. -/
theorem C8_validation_after_epoch {L P : Type} (o : Oracles L P) (acc : ℚ)
    (hacc : (valRun o.valBatches o.predict o.taskMetric).2 = .ok acc) :
    (o.batchesPerEpoch = 3 → ∀ b0 b1 b2 : List Tensor × List L,
      trainLoop o [b0, b1, b2] 0 =
        ([Ev.fit 0 (segment b0.1 b0.2 n_tbins).1 (segment b0.1 b0.2 n_tbins).2,
          Ev.fit 1 (segment b1.1 b1.2 n_tbins).1 (segment b1.1 b1.2 n_tbins).2,
          Ev.fit 2 (segment b2.1 b2.2 n_tbins).1 (segment b2.1 b2.2 n_tbins).2,
          Ev.loadDataset .validation, Ev.validationAccuracy acc], none) ∧
      ((trainLoop o [b0, b1, b2] 0).1.filter isValLoad).length = 1) ∧
    (∀ (batches : List (List Tensor × List L)) (i : Nat),
      trainLoop o batches i =
        ((List.enumFrom i batches).flatMap (fun p =>
          Ev.fit p.1 (segment p.2.1 p.2.2 n_tbins).1 (segment p.2.1 p.2.2 n_tbins).2 ::
            (if (p.1 + 1) % o.batchesPerEpoch = 0 then
              [Ev.loadDataset .validation, Ev.validationAccuracy acc] else [])),
         none)) := by
  have htr := trainLoop_trace o acc hacc
  refine ⟨?_, htr⟩
  intro h3 b0 b1 b2
  have h := htr [b0, b1, b2] 0
  rw [h3] at h
  have h1 : (0 + 1) % 3 ≠ 0 := by decide
  have h2 : (1 + 1) % 3 ≠ 0 := by decide
  have h3' : (2 + 1) % 3 = 0 := by decide
  simp only [List.enumFrom, List.flatMap_cons, List.flatMap_nil, if_pos h3',
    if_neg h1, if_neg h2, List.cons_append, List.nil_append, List.append_nil] at h
  exact ⟨h, by rw [h]; rfl⟩

/-- Witness for C8: with three training batches and `batches_per_epoch = 3`,
exactly one validation pass happens. -/
theorem C8_validation_after_epoch_witness :
    (valRun o8.valBatches o8.predict o8.taskMetric).2 =
      .ok (valAcc o8.valBatches o8.predict o8.taskMetric) ∧
    o8.batchesPerEpoch = 3 ∧
    ((trainLoop o8 [([w100], [2]), ([w100], [2]), ([w100], [2])] 0).1.filter
      isValLoad).length = 1 := by
  have hacc : (valRun o8.valBatches o8.predict o8.taskMetric).2 =
      .ok (valAcc o8.valBatches o8.predict o8.taskMetric) := by
    rw [valRun, if_neg (by decide)]
  exact ⟨hacc, rfl, ((C8_validation_after_epoch o8 _ hacc).1 rfl _ _ _).2⟩

end ASC
